import Mathlib

/-!
Verification of the in-memory todo-list store implemented in `src/todo.rs`.

The store keeps a `Vec<TodoItem>` behind a mutex; every operation runs under
the lock, so the sequential functional semantics below is faithful to the
serialized behaviour of the Rust code.  Two sources of nondeterminism are
externalised as explicit parameters, in the usual shallow-embedding style:

* the clock `Utc::now()` becomes a `now : Nat` argument;
* the UUID generator `Uuid::new_v4().to_string()` becomes a `newId : String`
  argument (freshness of generated ids is the uuid library's contract and is
  taken as a hypothesis where a theorem needs it).

Serialization via `serde_json::to_string_pretty` is infallible for these
types (plain structs of strings, booleans and timestamps), so the
`internal_error` branch of each Rust operation is dead code; operations
return their record payload directly, and `McpError.internalError` is kept
only to reflect the error taxonomy.
-/

/-- Rust struct `TodoItem` (src/todo.rs, lines 14-22).  The `DateTime<Utc>`
timestamps are modelled as natural numbers. -/
structure TodoItem where
  id : String
  title : String
  description : Option String
  completed : Bool
  created_at : Nat
  updated_at : Nat
deriving DecidableEq, Repr

/-- Rust struct `CreateTodoRequest` (src/todo.rs, lines 25-29). -/
structure CreateTodoRequest where
  title : String
  description : Option String
deriving DecidableEq, Repr

/-- Rust struct `UpdateTodoRequest` (src/todo.rs, lines 32-38). -/
structure UpdateTodoRequest where
  id : String
  title : Option String
  description : Option String
  completed : Option Bool
deriving DecidableEq, Repr

/-- Rust `rmcp::Error` as used by the dispatcher: a category plus a list of
structured context entries (modelling the `json!` payloads). -/
inductive McpError where
  | invalidParams (message : String) (data : List (String × String))
  | internalError (message : String) (data : List (String × String))
deriving DecidableEq, Repr

/-- The error every operation returns when the id is absent, as built in
src/todo.rs: `McpError::invalid_params("Todo item with specified ID not
found", Some(json!(...)))` with the requested id echoed in context. -/
def notFoundError (id : String) : McpError :=
  McpError.invalidParams "Todo item with specified ID not found" [("id", id)]

/-- The store's collection: the `Vec<TodoItem>` inside `TodoList.todos`. -/
abbrev Todos := List TodoItem

/-- Rust `TodoList::list_todos` (src/todo.rs, lines 56-62): returns a
snapshot of the whole collection and does not mutate it. -/
def list_todos (todos : Todos) : Except McpError (List TodoItem) × Todos :=
  (Except.ok todos, todos)

/-- Rust `TodoList::create_todo` (src/todo.rs, lines 66-87): builds the new
record with `completed = false` and both timestamps equal to `now`, pushes it
at the end of the vector, and returns it. -/
def create_todo (now : Nat) (newId : String) (req : CreateTodoRequest)
    (todos : Todos) : Except McpError TodoItem × Todos :=
  let todo : TodoItem :=
    { id := newId, title := req.title, description := req.description,
      completed := false, created_at := now, updated_at := now }
  (Except.ok todo, todos ++ [todo])

/-- In-place mutation through `iter_mut().find(p)`: rewrite the first element
satisfying `p` with `f`, leaving everything else untouched. -/
def updateFirst (p : TodoItem → Bool) (f : TodoItem → TodoItem) :
    Todos → Todos
  | [] => []
  | t :: ts => if p t then f t :: ts else t :: updateFirst p f ts

/-- Removal through `iter().position(p)` followed by `remove(idx)`: drop the
first element satisfying `p`; `none` when no element matches. -/
def deleteFirst (p : TodoItem → Bool) : Todos → Option Todos
  | [] => none
  | t :: ts => if p t then some ts else (deleteFirst p ts).map (t :: ·)

/-- The field merge performed by `update_todo` on the found record
(src/todo.rs, lines 100-109): each request field that is present overwrites
the stored field, absent fields are untouched, and `updated_at` is refreshed
unconditionally. -/
def applyUpdate (now : Nat) (req : UpdateTodoRequest) (todo : TodoItem) :
    TodoItem :=
  let t1 := match req.title with
    | some title => { todo with title := title }
    | none => todo
  let t2 := match req.description with
    | some d => { t1 with description := some d }
    | none => t1
  let t3 := match req.completed with
    | some c => { t2 with completed := c }
    | none => t2
  { t3 with updated_at := now }

/-- Rust `TodoList::update_todo` (src/todo.rs, lines 91-121): find the first
record whose id equals `req.id`, merge the optional fields into it and return
the mutated record; `NotFound` when no record matches. -/
def update_todo (now : Nat) (req : UpdateTodoRequest) (todos : Todos) :
    Except McpError TodoItem × Todos :=
  match todos.find? (fun t => t.id == req.id) with
  | some t =>
      (Except.ok (applyUpdate now req t),
       updateFirst (fun t => t.id == req.id) (applyUpdate now req) todos)
  | none => (Except.error (notFoundError req.id), todos)

/-- Rust `TodoList::delete_todo` (src/todo.rs, lines 125-146): remove the
first record whose id equals `id` and return a confirmation string;
`NotFound` when no record matches. -/
def delete_todo (id : String) (todos : Todos) :
    Except McpError String × Todos :=
  match deleteFirst (fun t => t.id == id) todos with
  | some todos2 =>
      (Except.ok ("Successfully deleted todo item with ID " ++ id), todos2)
  | none => (Except.error (notFoundError id), todos)

/-- Rust `TodoList::get_todo` (src/todo.rs, lines 150-171): return a copy of
the first record whose id equals `id`, without mutating the collection;
`NotFound` when no record matches. -/
def get_todo (id : String) (todos : Todos) :
    Except McpError TodoItem × Todos :=
  match todos.find? (fun t => t.id == id) with
  | some t => (Except.ok t, todos)
  | none => (Except.error (notFoundError id), todos)

/-- The mutation performed by `complete_todo` on the found record
(src/todo.rs, lines 186-187): set `completed` and refresh `updated_at`. -/
def completeItem (now : Nat) (todo : TodoItem) : TodoItem :=
  { todo with completed := true, updated_at := now }

/-- Rust `TodoList::complete_todo` (src/todo.rs, lines 175-199): find the
first record whose id equals `id`, mark it completed, refresh its
`updated_at` and return it; `NotFound` when no record matches. -/
def complete_todo (now : Nat) (id : String) (todos : Todos) :
    Except McpError TodoItem × Todos :=
  match todos.find? (fun t => t.id == id) with
  | some t =>
      (Except.ok (completeItem now t),
       updateFirst (fun t => t.id == id) (completeItem now) todos)
  | none => (Except.error (notFoundError id), todos)

/-- One client request, with the oracle values (clock reading, generated
uuid) it was executed with. -/
inductive Op where
  | listOp
  | createOp (now : Nat) (newId : String) (req : CreateTodoRequest)
  | updateOp (now : Nat) (req : UpdateTodoRequest)
  | deleteOp (id : String)
  | getOp (id : String)
  | completeOp (now : Nat) (id : String)
deriving DecidableEq, Repr

/-- State transition of one operation: the collection the store holds after
the call (the Rust error branches do not touch the vector). -/
def stepState (todos : Todos) : Op → Todos
  | Op.listOp => (list_todos todos).2
  | Op.createOp now newId req => (create_todo now newId req todos).2
  | Op.updateOp now req => (update_todo now req todos).2
  | Op.deleteOp id => (delete_todo id todos).2
  | Op.getOp id => (get_todo id todos).2
  | Op.completeOp now id => (complete_todo now id todos).2

/-- Run a sequence of operations from a starting collection. -/
def runOps (todos : Todos) : List Op → Todos
  | [] => todos
  | op :: ops => runOps (stepState todos op) ops

/-- The ids handed to the create operations of a trace, in order. -/
def createdIds : List Op → List String
  | [] => []
  | Op.createOp _ newId _ :: ops => newId :: createdIds ops
  | _ :: ops => createdIds ops

/-- Freshness of the uuid oracle along a trace: every create is handed an id
that no record held by the store at that moment already carries.  This is the
contract of `Uuid::new_v4`. -/
def idsFreshB (todos : Todos) : List Op → Bool
  | [] => true
  | op :: ops =>
    (match op with
     | Op.createOp _ newId _ => todos.all (fun t => !(t.id == newId))
     | _ => true) && idsFreshB (stepState todos op) ops

/-! ## Basic lemmas about the list helpers -/

theorem updateFirst_map (p : TodoItem → Bool) (f : TodoItem → TodoItem)
    (g : TodoItem → α) (hf : ∀ t, g (f t) = g t) :
    ∀ l : Todos, (updateFirst p f l).map g = l.map g := by
  intro l
  induction l with
  | nil => rfl
  | cons a l ih =>
      by_cases h : p a = true
      · simp [updateFirst, h, hf]
      · simp [updateFirst, h, ih]

theorem updateFirst_length (p : TodoItem → Bool) (f : TodoItem → TodoItem) :
    ∀ l : Todos, (updateFirst p f l).length = l.length := by
  intro l
  induction l with
  | nil => rfl
  | cons a l ih =>
      by_cases h : p a = true
      · simp [updateFirst, h]
      · simp [updateFirst, h, ih]

theorem find?_updateFirst (p : TodoItem → Bool) (f : TodoItem → TodoItem)
    (hp : ∀ t, p (f t) = p t) :
    ∀ (l : Todos) (t : TodoItem), l.find? p = some t →
      (updateFirst p f l).find? p = some (f t) := by
  intro l
  induction l with
  | nil => intro t h; simp [List.find?] at h
  | cons a l ih =>
      intro t h
      by_cases ha : p a = true
      · rw [List.find?_cons_of_pos _ ha] at h
        cases h
        rw [updateFirst, if_pos ha, List.find?_cons_of_pos]
        rw [hp]; exact ha
      · rw [List.find?_cons_of_neg _ (by simpa using ha)] at h
        rw [updateFirst, if_neg ha, List.find?_cons_of_neg _ (by simpa using ha)]
        exact ih t h

theorem deleteFirst_eq_none (p : TodoItem → Bool) :
    ∀ l : Todos, deleteFirst p l = none ↔ ∀ t ∈ l, p t = false := by
  intro l
  induction l with
  | nil => simp [deleteFirst]
  | cons a l ih =>
      by_cases h : p a = true
      · rw [deleteFirst, if_pos h]
        simp [h]
      · rw [deleteFirst, if_neg h]
        rw [Option.map_eq_none', ih]
        simp [Bool.not_eq_true] at h
        simp [h]

theorem deleteFirst_sublist (p : TodoItem → Bool) :
    ∀ l l' : Todos, deleteFirst p l = some l' → l'.Sublist l := by
  intro l
  induction l with
  | nil => intro l' h; simp [deleteFirst] at h
  | cons a l ih =>
      intro l' h
      by_cases ha : p a = true
      · rw [deleteFirst, if_pos ha] at h
        cases h
        exact List.sublist_cons_self a _
      · rw [deleteFirst, if_neg ha] at h
        cases hd : deleteFirst p l with
        | none => rw [hd, Option.map_none'] at h; exact absurd h (by simp)
        | some ys =>
            rw [hd, Option.map_some'] at h
            cases h
            exact List.Sublist.cons₂ a (ih ys hd)

theorem deleteFirst_countP (p : TodoItem → Bool) :
    ∀ l l' : Todos, deleteFirst p l = some l' →
      l'.countP p + 1 = l.countP p := by
  intro l
  induction l with
  | nil => intro l' h; simp [deleteFirst] at h
  | cons a l ih =>
      intro l' h
      by_cases ha : p a = true
      · rw [deleteFirst, if_pos ha] at h
        cases h
        simp [List.countP_cons, ha]
      · rw [deleteFirst, if_neg ha] at h
        cases hd : deleteFirst p l with
        | none => rw [hd, Option.map_none'] at h; exact absurd h (by simp)
        | some ys =>
            rw [hd, Option.map_some'] at h
            cases h
            simp only [List.countP_cons, ha, if_false]
            rw [← ih ys hd]
            simp [List.countP_cons, ha]

/-! ## Field-level description of the record mutations -/

theorem applyUpdate_id (now : Nat) (req : UpdateTodoRequest) (t : TodoItem) :
    (applyUpdate now req t).id = t.id := by
  obtain ⟨i, ti, d, c⟩ := req
  cases ti <;> cases d <;> cases c <;> rfl

theorem applyUpdate_created_at (now : Nat) (req : UpdateTodoRequest)
    (t : TodoItem) : (applyUpdate now req t).created_at = t.created_at := by
  obtain ⟨i, ti, d, c⟩ := req
  cases ti <;> cases d <;> cases c <;> rfl

theorem applyUpdate_updated_at (now : Nat) (req : UpdateTodoRequest)
    (t : TodoItem) : (applyUpdate now req t).updated_at = now := by
  obtain ⟨i, ti, d, c⟩ := req
  cases ti <;> cases d <;> cases c <;> rfl

theorem applyUpdate_title (now : Nat) (req : UpdateTodoRequest)
    (t : TodoItem) :
    (applyUpdate now req t).title =
      (match req.title with | some x => x | none => t.title) := by
  obtain ⟨i, ti, d, c⟩ := req
  cases ti <;> cases d <;> cases c <;> rfl

theorem applyUpdate_description (now : Nat) (req : UpdateTodoRequest)
    (t : TodoItem) :
    (applyUpdate now req t).description =
      (match req.description with | some x => some x | none => t.description) := by
  obtain ⟨i, ti, d, c⟩ := req
  cases ti <;> cases d <;> cases c <;> rfl

theorem applyUpdate_completed (now : Nat) (req : UpdateTodoRequest)
    (t : TodoItem) :
    (applyUpdate now req t).completed =
      (match req.completed with | some x => x | none => t.completed) := by
  obtain ⟨i, ti, d, c⟩ := req
  cases ti <;> cases d <;> cases c <;> rfl

/-! ## State lemmas for the six operations -/

theorem list_todos_snd (s : Todos) : (list_todos s).2 = s := rfl

theorem create_todo_snd (now : Nat) (newId : String) (req : CreateTodoRequest)
    (s : Todos) :
    (create_todo now newId req s).2 =
      s ++ [{ id := newId, title := req.title, description := req.description,
              completed := false, created_at := now, updated_at := now }] := rfl

theorem get_todo_snd (id : String) (s : Todos) : (get_todo id s).2 = s := by
  unfold get_todo
  cases s.find? (fun t => t.id == id) <;> rfl

theorem update_todo_snd_map_id (now : Nat) (req : UpdateTodoRequest)
    (s : Todos) :
    ((update_todo now req s).2).map (fun t => t.id) = s.map (fun t => t.id) := by
  unfold update_todo
  cases s.find? (fun t => t.id == req.id) with
  | none => rfl
  | some t => exact updateFirst_map _ _ _ (applyUpdate_id now req) s

theorem complete_todo_snd_map_id (now : Nat) (id : String) (s : Todos) :
    ((complete_todo now id s).2).map (fun t => t.id) = s.map (fun t => t.id) := by
  unfold complete_todo
  cases s.find? (fun t => t.id == id) with
  | none => rfl
  | some t =>
      show (updateFirst (fun t => t.id == id) (completeItem now) s).map
            (fun t => t.id) = s.map (fun t => t.id)
      exact updateFirst_map (fun t => t.id == id) (completeItem now)
        (fun t => t.id) (fun _ => rfl) s

theorem delete_todo_snd_sublist (id : String) (s : Todos) :
    ((delete_todo id s).2).Sublist s := by
  unfold delete_todo
  cases hd : deleteFirst (fun t => t.id == id) s with
  | none => exact List.Sublist.refl s
  | some s2 => exact deleteFirst_sublist _ s s2 hd

/-! ## Uniqueness bookkeeping -/

theorem countP_id_le_one (l : Todos) (i : String)
    (h : (l.map (fun t => t.id)).Nodup) :
    l.countP (fun t => t.id == i) ≤ 1 := by
  induction l with
  | nil => simp
  | cons a l ih =>
      simp only [List.map_cons, List.nodup_cons, List.mem_map] at h
      by_cases ha : (a.id == i) = true
      · have hai : a.id = i := by simpa using ha
        have hz : l.countP (fun t => t.id == i) = 0 := by
          rw [List.countP_eq_zero]
          intro t ht hti
          exact h.1 ⟨t, ht, by simpa [hai] using hti⟩
        simp [List.countP_cons, ha, hz]
      · simp [List.countP_cons, ha]
        exact ih h.2

theorem deleteFirst_all_not (p : TodoItem → Bool) (l l' : Todos)
    (hcount : l.countP p ≤ 1) (h : deleteFirst p l = some l') :
    ∀ t ∈ l', p t = false := by
  have hc := deleteFirst_countP p l l' h
  have hz : l'.countP p = 0 := by omega
  rw [List.countP_eq_zero] at hz
  intro t ht
  exact Bool.eq_false_iff.mpr (hz t ht)

/-! ## Trace lemmas -/

theorem runOps_map_id_sublist :
    ∀ (ops : List Op) (s : Todos),
      ((runOps s ops).map (fun t => t.id)).Sublist
        (s.map (fun t => t.id) ++ createdIds ops) := by
  intro ops
  induction ops with
  | nil => intro s; simp [runOps, createdIds]
  | cons op ops ih =>
      intro s
      cases op with
      | listOp => simpa [runOps, stepState, list_todos, createdIds] using ih s
      | getOp i => simpa [runOps, stepState, get_todo_snd, createdIds] using ih s
      | createOp now newId req =>
          have h := ih ((create_todo now newId req s).2)
          rw [create_todo_snd] at h
          simpa [runOps, stepState, create_todo, createdIds] using h
      | updateOp now req =>
          have h := ih ((update_todo now req s).2)
          rw [update_todo_snd_map_id now req s] at h
          simpa [runOps, stepState, createdIds] using h
      | completeOp now i =>
          have h := ih ((complete_todo now i s).2)
          rw [complete_todo_snd_map_id now i s] at h
          simpa [runOps, stepState, createdIds] using h
      | deleteOp i =>
          have h := ih ((delete_todo i s).2)
          have h2 : (((delete_todo i s).2).map (fun t => t.id)).Sublist
              (s.map (fun t => t.id)) :=
            (delete_todo_snd_sublist i s).map _
          have h3 := h.trans
            (List.Sublist.append h2 (List.Sublist.refl (createdIds ops)))
          simpa [runOps, stepState, createdIds] using h3

theorem runOps_map_id_nodup :
    ∀ (ops : List Op) (s : Todos), idsFreshB s ops = true →
      (s.map (fun t => t.id)).Nodup →
      ((runOps s ops).map (fun t => t.id)).Nodup := by
  intro ops
  induction ops with
  | nil => intro s _ h; simpa [runOps] using h
  | cons op ops ih =>
      intro s hf hn
      simp only [idsFreshB, Bool.and_eq_true] at hf
      obtain ⟨hf1, hf2⟩ := hf
      rw [runOps]
      apply ih _ hf2
      cases op with
      | listOp => simpa [stepState, list_todos] using hn
      | getOp i => simpa [stepState, get_todo_snd] using hn
      | updateOp now req =>
          show (((update_todo now req s).2).map (fun t => t.id)).Nodup
          rw [update_todo_snd_map_id now req s]
          exact hn
      | completeOp now i =>
          show (((complete_todo now i s).2).map (fun t => t.id)).Nodup
          rw [complete_todo_snd_map_id now i s]
          exact hn
      | deleteOp i =>
          exact List.Nodup.sublist ((delete_todo_snd_sublist i s).map _) hn
      | createOp now newId req =>
          simp only [List.all_eq_true, Bool.not_eq_eq_eq_not, Bool.not_true,
            beq_eq_false_iff_ne] at hf1
          have hmem : newId ∉ s.map (fun t => t.id) := by
            intro hx
            obtain ⟨t, ht, hti⟩ := List.mem_map.mp hx
            exact hf1 t ht hti
          show (((create_todo now newId req s).2).map (fun t => t.id)).Nodup
          rw [create_todo_snd]
          rw [List.map_append, List.nodup_append]
          refine ⟨hn, by simp, ?_⟩
          intro x hx hx2
          simp at hx2
          rw [hx2] at hx
          exact hmem hx

theorem idsFreshB_append_left :
    ∀ (pre suf : List Op) (s : Todos),
      idsFreshB s (pre ++ suf) = true → idsFreshB s pre = true := by
  intro pre
  induction pre with
  | nil => intro suf s _; rfl
  | cons op pre ih =>
      intro suf s h
      simp only [List.cons_append, idsFreshB, Bool.and_eq_true] at h ⊢
      exact ⟨h.1, ih suf _ h.2⟩

/-! ## NotFound characterisation of the four id-addressed operations -/

theorem update_todo_not_found (now : Nat) (req : UpdateTodoRequest)
    (s : Todos) :
    (update_todo now req s).1.isOk = false ↔ ∀ t ∈ s, t.id ≠ req.id := by
  cases hf : s.find? (fun x => x.id == req.id) with
  | none =>
      simp only [update_todo, hf]
      constructor
      · intro _ t ht hti
        exact List.find?_eq_none.mp hf t ht (by simpa using hti)
      · intro _; rfl
  | some t =>
      have ht := List.mem_of_find?_eq_some hf
      have hp : t.id = req.id := by simpa using List.find?_some hf
      simp only [update_todo, hf]
      constructor
      · intro hh; simp [Except.isOk, Except.toBool] at hh
      · intro hall; exact absurd hp (hall t ht)

theorem update_todo_error_value (now : Nat) (req : UpdateTodoRequest)
    (s : Todos) :
    (update_todo now req s).1.isOk = false →
      (update_todo now req s).1 = Except.error (notFoundError req.id) := by
  cases hf : s.find? (fun x => x.id == req.id) with
  | none => intro _; simp only [update_todo, hf]
  | some t => intro hh; simp only [update_todo, hf, Except.isOk, Except.toBool] at hh; exact Bool.noConfusion hh

theorem delete_todo_not_found (i : String) (s : Todos) :
    (delete_todo i s).1.isOk = false ↔ ∀ t ∈ s, t.id ≠ i := by
  cases hd : deleteFirst (fun t => t.id == i) s with
  | none =>
      simp only [delete_todo, hd]
      constructor
      · intro _ t ht hti
        have := (deleteFirst_eq_none _ s).mp hd t ht
        rw [show t.id = i from hti] at this
        simp at this
      · intro _; rfl
  | some s2 =>
      simp only [delete_todo, hd]
      constructor
      · intro hh; simp [Except.isOk, Except.toBool] at hh
      · intro hall
        have h0 : deleteFirst (fun t => t.id == i) s = none := by
          rw [deleteFirst_eq_none]
          intro t ht
          simpa using hall t ht
        rw [h0] at hd
        cases hd

theorem delete_todo_error_value (i : String) (s : Todos) :
    (delete_todo i s).1.isOk = false →
      (delete_todo i s).1 = Except.error (notFoundError i) := by
  cases hd : deleteFirst (fun t => t.id == i) s with
  | none => intro _; simp only [delete_todo, hd]
  | some s2 => intro hh; simp only [delete_todo, hd, Except.isOk, Except.toBool] at hh; exact Bool.noConfusion hh

theorem get_todo_not_found (i : String) (s : Todos) :
    (get_todo i s).1.isOk = false ↔ ∀ t ∈ s, t.id ≠ i := by
  cases hf : s.find? (fun x => x.id == i) with
  | none =>
      simp only [get_todo, hf]
      constructor
      · intro _ t ht hti
        exact List.find?_eq_none.mp hf t ht (by simpa using hti)
      · intro _; rfl
  | some t =>
      have ht := List.mem_of_find?_eq_some hf
      have hp : t.id = i := by simpa using List.find?_some hf
      simp only [get_todo, hf]
      constructor
      · intro hh; simp [Except.isOk, Except.toBool] at hh
      · intro hall; exact absurd hp (hall t ht)

theorem get_todo_error_value (i : String) (s : Todos) :
    (get_todo i s).1.isOk = false →
      (get_todo i s).1 = Except.error (notFoundError i) := by
  cases hf : s.find? (fun x => x.id == i) with
  | none => intro _; simp only [get_todo, hf]
  | some t => intro hh; simp only [get_todo, hf, Except.isOk, Except.toBool] at hh; exact Bool.noConfusion hh

theorem complete_todo_not_found (now : Nat) (i : String) (s : Todos) :
    (complete_todo now i s).1.isOk = false ↔ ∀ t ∈ s, t.id ≠ i := by
  cases hf : s.find? (fun x => x.id == i) with
  | none =>
      simp only [complete_todo, hf]
      constructor
      · intro _ t ht hti
        exact List.find?_eq_none.mp hf t ht (by simpa using hti)
      · intro _; rfl
  | some t =>
      have ht := List.mem_of_find?_eq_some hf
      have hp : t.id = i := by simpa using List.find?_some hf
      simp only [complete_todo, hf]
      constructor
      · intro hh; simp [Except.isOk, Except.toBool] at hh
      · intro hall; exact absurd hp (hall t ht)

theorem complete_todo_error_value (now : Nat) (i : String) (s : Todos) :
    (complete_todo now i s).1.isOk = false →
      (complete_todo now i s).1 = Except.error (notFoundError i) := by
  cases hf : s.find? (fun x => x.id == i) with
  | none => intro _; simp only [complete_todo, hf]
  | some t => intro hh; simp only [complete_todo, hf, Except.isOk, Except.toBool] at hh; exact Bool.noConfusion hh

theorem delete_then_gone (i : String) (s : Todos)
    (hnd : (s.map (fun t => t.id)).Nodup)
    (hok : (delete_todo i s).1.isOk = true) :
    (get_todo i (delete_todo i s).2).1 = Except.error (notFoundError i) ∧
    (delete_todo i (delete_todo i s).2).1 = Except.error (notFoundError i) := by
  cases hd : deleteFirst (fun t => t.id == i) s with
  | none => simp [delete_todo, hd, Except.isOk, Except.toBool] at hok
  | some s2 =>
      have hall : ∀ t ∈ s2, (t.id == i) = false :=
        deleteFirst_all_not _ s s2 (countP_id_le_one s i hnd) hd
      have hfind : s2.find? (fun t => t.id == i) = none :=
        List.find?_eq_none.mpr (fun x hx => by simp [hall x hx])
      have hdel2 : deleteFirst (fun t : TodoItem => t.id == i) s2 = none :=
        (deleteFirst_eq_none _ s2).mpr hall
      have hpost : (delete_todo i s).2 = s2 := by simp [delete_todo, hd]
      rw [hpost]
      constructor
      · simp only [get_todo, hfind]
      · simp only [delete_todo, hdel2]

/-! ## Forall₂ transport along updateFirst -/

theorem updateFirst_forall₂ (R : TodoItem → TodoItem → Prop)
    (p : TodoItem → Bool) (f : TodoItem → TodoItem)
    (hR : ∀ t, R t t) (hf : ∀ t, R t (f t)) :
    ∀ l : Todos, List.Forall₂ R l (updateFirst p f l) := by
  intro l
  induction l with
  | nil => exact List.Forall₂.nil
  | cons a l ih =>
      by_cases h : p a = true
      · rw [updateFirst, if_pos h]
        exact List.Forall₂.cons (hf a) (List.forall₂_same.mpr (fun x _ => hR x))
      · rw [updateFirst, if_neg h]
        exact List.Forall₂.cons (hR a) ih

/-! ## Sample records used by the closed witness statements -/

/-- Sample record with no description, not completed. -/
def itemA : TodoItem :=
  { id := "a", title := "Buy milk", description := none, completed := false,
    created_at := 0, updated_at := 0 }

/-- Sample record with a description, already completed. -/
def itemB : TodoItem :=
  { id := "b", title := "Walk dog", description := some "in the park",
    completed := true, created_at := 1, updated_at := 1 }

/-! ## Claim theorems -/

/-- C1: when a record with the requested id is stored, `update_todo`
succeeds and overwrites exactly those of title, description and completed
that are present in the request, leaving each absent field at its prior
stored value — both in the returned record and in the record stored under
that id afterwards. -/
theorem C1_update_partial_merge (now : Nat) (req : UpdateTodoRequest)
    (s : Todos) (t : TodoItem)
    (h : s.find? (fun x => x.id == req.id) = some t) :
    ∃ r, (update_todo now req s).1 = Except.ok r ∧
      ((update_todo now req s).2).find? (fun x => x.id == req.id) = some r ∧
      (∀ x, req.title = some x → r.title = x) ∧
      (req.title = none → r.title = t.title) ∧
      (∀ x, req.description = some x → r.description = some x) ∧
      (req.description = none → r.description = t.description) ∧
      (∀ b, req.completed = some b → r.completed = b) ∧
      (req.completed = none → r.completed = t.completed) := by
  have hp : ∀ x : TodoItem, ((applyUpdate now req x).id == req.id) =
      (x.id == req.id) := fun x => by rw [applyUpdate_id]
  refine ⟨applyUpdate now req t, ?_, ?_, ?_, ?_, ?_, ?_, ?_, ?_⟩
  · simp [update_todo, h]
  · simp only [update_todo, h]
    exact find?_updateFirst _ _ hp s t h
  · intro x hx; rw [applyUpdate_title, hx]
  · intro hx; rw [applyUpdate_title, hx]
  · intro x hx; rw [applyUpdate_description, hx]
  · intro hx; rw [applyUpdate_description, hx]
  · intro b hb; rw [applyUpdate_completed, hb]
  · intro hb; rw [applyUpdate_completed, hb]

/-- Witness for C1 at a concrete store: updating item "a" with a new title
and completed=true keeps the absent description. -/
theorem C1_update_partial_merge_witness :
    ∃ r, (update_todo 5 ⟨"a", some "Buy oat milk", none, some true⟩
        [itemA]).1 = Except.ok r ∧
      r.title = "Buy oat milk" ∧ r.description = itemA.description ∧
      r.completed = true := by
  obtain ⟨r, h1, _h2, h3, _h4, _h5, h6, h7, _h8⟩ :=
    C1_update_partial_merge 5 ⟨"a", some "Buy oat milk", none, some true⟩
      [itemA] itemA (by rfl)
  exact ⟨r, h1, h3 _ rfl, h6 rfl, h7 _ rfl⟩

/-- C2: update, delete, get and complete fail precisely when no live record
carries the requested id; the failure value is the invalid-parameters error
with the id echoed in its structured context; and on a store with pairwise
distinct ids, after a successful delete of an id both get and delete of
that id fail with that error. -/
theorem C2_notfound_semantics (now : Nat) (req : UpdateTodoRequest)
    (i : String) (s : Todos) :
    ((update_todo now req s).1.isOk = false ↔ ∀ t ∈ s, t.id ≠ req.id) ∧
    ((update_todo now req s).1.isOk = false →
      (update_todo now req s).1 = Except.error (notFoundError req.id)) ∧
    ((delete_todo i s).1.isOk = false ↔ ∀ t ∈ s, t.id ≠ i) ∧
    ((delete_todo i s).1.isOk = false →
      (delete_todo i s).1 = Except.error (notFoundError i)) ∧
    ((get_todo i s).1.isOk = false ↔ ∀ t ∈ s, t.id ≠ i) ∧
    ((get_todo i s).1.isOk = false →
      (get_todo i s).1 = Except.error (notFoundError i)) ∧
    ((complete_todo now i s).1.isOk = false ↔ ∀ t ∈ s, t.id ≠ i) ∧
    ((complete_todo now i s).1.isOk = false →
      (complete_todo now i s).1 = Except.error (notFoundError i)) ∧
    ((s.map (fun t => t.id)).Nodup → (delete_todo i s).1.isOk = true →
      (get_todo i (delete_todo i s).2).1 = Except.error (notFoundError i) ∧
      (delete_todo i (delete_todo i s).2).1 =
        Except.error (notFoundError i)) :=
  ⟨update_todo_not_found now req s, update_todo_error_value now req s,
   delete_todo_not_found i s, delete_todo_error_value i s,
   get_todo_not_found i s, get_todo_error_value i s,
   complete_todo_not_found now i s, complete_todo_error_value now i s,
   fun hnd hok => delete_then_gone i s hnd hok⟩

/-- Witness for C2: an absent id makes update fail with the echoing error,
and after deleting "a" both get and delete of "a" fail with it. -/
theorem C2_notfound_semantics_witness :
    (update_todo 3 ⟨"zzz", none, none, none⟩ [itemA, itemB]).1 =
      Except.error (notFoundError "zzz") ∧
    (get_todo "a" (delete_todo "a" [itemA, itemB]).2).1 =
      Except.error (notFoundError "a") ∧
    (delete_todo "a" (delete_todo "a" [itemA, itemB]).2).1 =
      Except.error (notFoundError "a") := by
  obtain ⟨h1, h2, _, _, _, _, _, _, hlast⟩ :=
    C2_notfound_semantics 3 ⟨"zzz", none, none, none⟩ "a" [itemA, itemB]
  have habs : ∀ t ∈ [itemA, itemB], t.id ≠ "zzz" := by decide
  have hgone := hlast (by decide) (by rfl)
  exact ⟨h2 (h1.mpr habs), hgone.1, hgone.2⟩

/-- C3: creating a record with title T and no description yields a record
carrying the generated id, title T, completed=false, no description and
equal timestamps; when the generated id is fresh for the store (the uuid
contract), fetching that id afterwards returns the very same record. -/
theorem C3_create_then_get (now : Nat) (newId T : String) (s : Todos)
    (hfresh : ∀ t ∈ s, t.id ≠ newId) :
    ∃ r, (create_todo now newId ⟨T, none⟩ s).1 = Except.ok r ∧
      r.id = newId ∧ r.title = T ∧ r.completed = false ∧
      r.description = none ∧ r.created_at = r.updated_at ∧
      (get_todo newId (create_todo now newId ⟨T, none⟩ s).2).1 =
        Except.ok r := by
  refine ⟨⟨newId, T, none, false, now, now⟩, rfl, rfl, rfl, rfl, rfl, rfl, ?_⟩
  have h1 : s.find? (fun t => t.id == newId) = none :=
    List.find?_eq_none.mpr (fun x hx => by simpa using hfresh x hx)
  have h2 : (s ++ [(⟨newId, T, none, false, now, now⟩ : TodoItem)]).find?
      (fun t => t.id == newId) = some ⟨newId, T, none, false, now, now⟩ := by
    rw [List.find?_append, h1]
    simp [List.find?]
  show (get_todo newId
      (s ++ [(⟨newId, T, none, false, now, now⟩ : TodoItem)])).1 =
    Except.ok ⟨newId, T, none, false, now, now⟩
  unfold get_todo
  rw [h2]

/-- Witness for C3 on a concrete store with a fresh generated id. -/
theorem C3_create_then_get_witness :
    ∃ r, (create_todo 7 "u1" ⟨"Buy milk", none⟩ [itemB]).1 = Except.ok r ∧
      r.id = "u1" ∧ r.title = "Buy milk" ∧ r.completed = false ∧
      r.description = none ∧ r.created_at = r.updated_at ∧
      (get_todo "u1" (create_todo 7 "u1" ⟨"Buy milk", none⟩ [itemB]).2).1 =
        Except.ok r :=
  C3_create_then_get 7 "u1" "Buy milk" [itemB] (by decide)

/-- C4: after any trace, list returns exactly the held records, whose ids
form a subsequence of the initial ids followed by the created ids in
creation order (so deletions never reorder the remaining records); in
particular creating A, B, C and deleting B lists exactly [A, C]. -/
theorem C4_list_insertion_order :
    (∀ (ops : List Op) (s : Todos),
        (list_todos (runOps s ops)).1 = Except.ok (runOps s ops) ∧
        ((runOps s ops).map (fun t => t.id)).Sublist
          (s.map (fun t => t.id) ++ createdIds ops)) ∧
    (∀ (rA rB rC : CreateTodoRequest) (n1 n2 n3 : Nat),
        (list_todos (runOps [] [Op.createOp n1 "a" rA, Op.createOp n2 "b" rB,
            Op.createOp n3 "c" rC, Op.deleteOp "b"])).1 =
          Except.ok [⟨"a", rA.title, rA.description, false, n1, n1⟩,
            ⟨"c", rC.title, rC.description, false, n3, n3⟩]) := by
  constructor
  · intro ops s
    exact ⟨rfl, runOps_map_id_sublist ops s⟩
  · intro rA rB rC n1 n2 n3
    rfl

/-- C5: every successful update and every successful complete sets the
record's updated_at to the current clock reading and preserves its
created_at and id, in the returned record and in the stored one; complete
additionally sets completed to true. -/
theorem C5_timestamps_refresh (now : Nat) (req : UpdateTodoRequest)
    (i : String) (s : Todos) (t u : TodoItem)
    (hu : s.find? (fun x => x.id == req.id) = some t)
    (hc : s.find? (fun x => x.id == i) = some u) :
    (∃ r, (update_todo now req s).1 = Except.ok r ∧
      r.updated_at = now ∧ r.created_at = t.created_at ∧ r.id = t.id ∧
      ((update_todo now req s).2).find? (fun x => x.id == req.id) =
        some r) ∧
    (∃ r, (complete_todo now i s).1 = Except.ok r ∧
      r.updated_at = now ∧ r.created_at = u.created_at ∧ r.id = u.id ∧
      r.completed = true ∧
      ((complete_todo now i s).2).find? (fun x => x.id == i) = some r) := by
  constructor
  · have hp : ∀ x : TodoItem, ((applyUpdate now req x).id == req.id) =
        (x.id == req.id) := fun x => by rw [applyUpdate_id]
    refine ⟨applyUpdate now req t, ?_, applyUpdate_updated_at now req t,
      applyUpdate_created_at now req t, applyUpdate_id now req t, ?_⟩
    · simp [update_todo, hu]
    · simp only [update_todo, hu]
      exact find?_updateFirst _ _ hp s t hu
  · refine ⟨completeItem now u, ?_, rfl, rfl, rfl, rfl, ?_⟩
    · simp [complete_todo, hc]
    · simp only [complete_todo, hc]
      exact find?_updateFirst (fun x => x.id == i) (completeItem now)
        (fun _ => rfl) s u hc

/-- Witness for C5: completing item "b" refreshes updated_at, keeps its
created_at and id and sets completed. -/
theorem C5_timestamps_refresh_witness :
    ∃ r, (complete_todo 9 "b" [itemA, itemB]).1 = Except.ok r ∧
      r.updated_at = 9 ∧ r.created_at = itemB.created_at ∧ r.id = "b" ∧
      r.completed = true := by
  obtain ⟨_, r, h1, h2, h3, h4, h5, _⟩ :=
    C5_timestamps_refresh 9 ⟨"a", none, none, none⟩ "b" [itemA, itemB]
      itemA itemB (by rfl) (by rfl)
  exact ⟨r, h1, h2, h3, h4, h5⟩

/-- C6: along any trace whose create operations are handed fresh generated
ids (the uuid generator's contract), the ids of the records held by the
store are pairwise distinct after every prefix of the trace; moreover each
create appends exactly the generator's id, independently of the request
contents, so identical create inputs still obtain distinct identifiers. -/
theorem C6_ids_unique (ops : List Op) (s : Todos)
    (hfresh : idsFreshB s ops = true)
    (hinit : (s.map (fun t => t.id)).Nodup) :
    (∀ pre suf, ops = pre ++ suf →
      ((runOps s pre).map (fun t => t.id)).Nodup) ∧
    (∀ (now : Nat) (newId : String) (req : CreateTodoRequest) (u : Todos),
      ((create_todo now newId req u).2).map (fun t => t.id) =
        u.map (fun t => t.id) ++ [newId]) := by
  constructor
  · intro pre suf hps
    subst hps
    exact runOps_map_id_nodup pre s (idsFreshB_append_left pre suf s hfresh)
      hinit
  · intro now newId req u
    simp [create_todo_snd]

/-- Witness for C6: a concrete trace of creates and a delete with fresh
uuids keeps the stored ids pairwise distinct. -/
theorem C6_ids_unique_witness :
    ((runOps [] [Op.createOp 0 "a" ⟨"t", none⟩, Op.createOp 1 "b" ⟨"t", none⟩,
        Op.deleteOp "a", Op.createOp 2 "c" ⟨"t", none⟩]).map
      (fun t => t.id)).Nodup := by
  have h := (C6_ids_unique [Op.createOp 0 "a" ⟨"t", none⟩,
      Op.createOp 1 "b" ⟨"t", none⟩, Op.deleteOp "a",
      Op.createOp 2 "c" ⟨"t", none⟩] [] (by decide) (by decide)).1
  exact h _ [] (by simp)

/-- C7: list and create always succeed, for every store state and every
create input. -/
theorem C7_list_create_never_fail (s : Todos) (now : Nat) (newId : String)
    (req : CreateTodoRequest) :
    (list_todos s).1 = Except.ok s ∧
    (create_todo now newId req s).1.isOk = true :=
  ⟨rfl, rfl⟩

/-- C8: update never turns a stored record's present description into an
absent one — every record whose description was present still has a present
(possibly replaced) description afterwards, position by position — and
complete leaves every description unchanged. -/
theorem C8_description_never_cleared (now : Nat) (req : UpdateTodoRequest)
    (i : String) (s : Todos) :
    List.Forall₂
      (fun a b => a.description.isSome = true → b.description.isSome = true)
      s ((update_todo now req s).2) ∧
    ((complete_todo now i s).2).map (fun t => t.description) =
      s.map (fun t => t.description) := by
  constructor
  · have hf : ∀ t : TodoItem, t.description.isSome = true →
        (applyUpdate now req t).description.isSome = true := by
      intro t ht
      rw [applyUpdate_description]
      cases hd : req.description with
      | some d => rfl
      | none => exact ht
    cases hfind : s.find? (fun x => x.id == req.id) with
    | none =>
        simp only [update_todo, hfind]
        exact List.forall₂_same.mpr (fun x _ h => h)
    | some t =>
        simp only [update_todo, hfind]
        exact updateFirst_forall₂ _ (fun x => x.id == req.id)
          (applyUpdate now req) (fun _ h => h) hf s
  · cases hfind : s.find? (fun x => x.id == i) with
    | none => simp only [complete_todo, hfind]
    | some t =>
        simp only [complete_todo, hfind]
        exact updateFirst_map (fun x => x.id == i) (completeItem now)
          (fun t => t.description) (fun _ => rfl) s

/-- Witness for C8 at a concrete store whose record has a description. -/
theorem C8_description_never_cleared_witness :
    List.Forall₂
      (fun a b => a.description.isSome = true → b.description.isSome = true)
      [itemB] ((update_todo 4 ⟨"b", none, none, none⟩ [itemB]).2) ∧
    ((complete_todo 4 "b" [itemB]).2).map (fun t => t.description) =
      [itemB].map (fun t => t.description) :=
  C8_description_never_cleared 4 ⟨"b", none, none, none⟩ "b" [itemB]

/-- C9: whenever update, delete, get or complete fails, the stored
collection is exactly what it was before the call. -/
theorem C9_failure_preserves_state (now : Nat) (req : UpdateTodoRequest)
    (i : String) (s : Todos) (e : McpError) :
    ((update_todo now req s).1 = Except.error e →
      (update_todo now req s).2 = s) ∧
    ((delete_todo i s).1 = Except.error e → (delete_todo i s).2 = s) ∧
    ((get_todo i s).1 = Except.error e → (get_todo i s).2 = s) ∧
    ((complete_todo now i s).1 = Except.error e →
      (complete_todo now i s).2 = s) := by
  refine ⟨?_, ?_, ?_, ?_⟩
  · cases hf : s.find? (fun x => x.id == req.id) with
    | none => intro _; simp only [update_todo, hf]
    | some t =>
        intro hh
        simp only [update_todo, hf] at hh
        exact Except.noConfusion hh
  · cases hd : deleteFirst (fun t => t.id == i) s with
    | none => intro _; simp only [delete_todo, hd]
    | some s2 =>
        intro hh
        simp only [delete_todo, hd] at hh
        exact Except.noConfusion hh
  · intro _; exact get_todo_snd i s
  · cases hf : s.find? (fun x => x.id == i) with
    | none => intro _; simp only [complete_todo, hf]
    | some t =>
        intro hh
        simp only [complete_todo, hf] at hh
        exact Except.noConfusion hh

/-- Witness for C9: the four operations leave the empty store empty when
they fail on an absent id. -/
theorem C9_failure_preserves_state_witness :
    (update_todo 0 ⟨"x", none, none, none⟩ []).2 = [] ∧
    (delete_todo "x" ([] : Todos)).2 = [] ∧
    (get_todo "x" ([] : Todos)).2 = [] ∧
    (complete_todo 0 "x" ([] : Todos)).2 = [] := by
  obtain ⟨h1, h2, h3, h4⟩ :=
    C9_failure_preserves_state 0 ⟨"x", none, none, none⟩ "x" []
      (notFoundError "x")
  exact ⟨h1 rfl, h2 rfl, h3 rfl, h4 rfl⟩

/-- C10: completing an already-completed record succeeds and changes only
updated_at: id, title, description, created_at and completed keep their
stored values, in the returned record and in the stored one. -/
theorem C10_complete_idempotent (now : Nat) (i : String) (s : Todos)
    (t : TodoItem) (h : s.find? (fun x => x.id == i) = some t)
    (hc : t.completed = true) :
    ∃ r, (complete_todo now i s).1 = Except.ok r ∧
      r.id = t.id ∧ r.title = t.title ∧ r.description = t.description ∧
      r.created_at = t.created_at ∧ r.completed = t.completed ∧
      r.updated_at = now ∧
      ((complete_todo now i s).2).find? (fun x => x.id == i) = some r := by
  refine ⟨completeItem now t, ?_, rfl, rfl, rfl, rfl, ?_, rfl, ?_⟩
  · simp [complete_todo, h]
  · rw [hc]; rfl
  · simp only [complete_todo, h]
    exact find?_updateFirst (fun x => x.id == i) (completeItem now)
      (fun _ => rfl) s t h

/-- Witness for C10: re-completing the already-completed item "b" keeps all
its fields except updated_at. -/
theorem C10_complete_idempotent_witness :
    ∃ r, (complete_todo 9 "b" [itemA, itemB]).1 = Except.ok r ∧
      r.title = itemB.title ∧ r.description = itemB.description ∧
      r.completed = itemB.completed ∧ r.updated_at = 9 := by
  obtain ⟨r, h1, _h2, h3, h4, _h5, h6, h7, _h8⟩ :=
    C10_complete_idempotent 9 "b" [itemA, itemB] itemB (by rfl) rfl
  exact ⟨r, h1, h3, h4, h6, h7⟩
